import Mathlib

/-!
Verification of the code-quality-checker core against its specification.

The Python sources are shallowly embedded: strings are `List Char`
(converted from `String` at the API boundary), Python `dict`s keyed by
strings with `int` values are association lists updated at the first
matching key, and fallible external-process invocation is an explicit
`Except`-valued oracle passed as an argument.  Machine floats appearing
in the score formula (`0.2`, `1.5`) are modelled as exact rationals;
every value reachable in the claims is small enough that the float and
rational computations agree.
-/

set_option maxRecDepth 16000

set_option maxHeartbeats 2000000

/-- ASCII whitespace as matched by Python's `str.strip`, `str.split()` and
the regex class `\s` (the additional Unicode whitespace characters that
Python also accepts are not modelled; no claim involves them). -/
def pyIsSpace (c : Char) : Bool :=
  c == ' ' || c == '\t' || c == '\n' || c == '\r' || c == '\x0b' || c == '\x0c'

/-- ASCII digits, the regex class `\d` restricted to ASCII. -/
def pyIsDigit (c : Char) : Bool :=
  '0' ≤ c && c ≤ '9'

/-- ASCII word characters, the regex class `\w` restricted to ASCII. -/
def pyIsWord (c : Char) : Bool :=
  pyIsDigit c || ('a' ≤ c && c ≤ 'z') || ('A' ≤ c && c ≤ 'Z') || c == '_'

/-- Python `str.split(sep)` for a single-character separator: splitting the
empty string yields `[""]`, and adjacent separators yield empty pieces. -/
def splitCh (sep : Char) : List Char → List (List Char)
  | [] => [[]]
  | c :: rest =>
    match splitCh sep rest with
    | [] => [[]]
    | g :: gs => if c == sep then [] :: g :: gs else (c :: g) :: gs

/-- Python `str.strip()`: remove leading and trailing whitespace. -/
def pyStrip (s : List Char) : List Char :=
  ((s.dropWhile pyIsSpace).reverse.dropWhile pyIsSpace).reverse

/-- Python `str.split()` with no argument: split on whitespace runs,
discarding empty pieces. -/
def pySplitWsAux : List Char → List Char → List (List Char)
  | [], acc =>
    match acc with
    | [] => []
    | _ => [acc.reverse]
  | c :: s, acc =>
    if pyIsSpace c then
      match acc with
      | [] => pySplitWsAux s []
      | _ => acc.reverse :: pySplitWsAux s []
    else
      pySplitWsAux s (c :: acc)

def pySplitWs (s : List Char) : List (List Char) :=
  pySplitWsAux s []

/-- Python `int` applied to a nonempty string of ASCII digits. -/
def digitsToNat (s : List Char) : Nat :=
  s.foldl (fun n c => n * 10 + (c.toNat - '0'.toNat)) 0

/-- Python `d.get(k, 0)` on a string-keyed `dict` with `int` values,
modelled as an association list (first binding of the key wins; the
update below never creates duplicate keys). -/
def dget [BEq κ] : List (κ × Nat) → κ → Nat
  | [], _ => 0
  | kv :: rest, k => if kv.1 == k then kv.2 else dget rest k

/-- Python `d[k] = v`: replace the first binding of `k`, or append one. -/
def dset [BEq κ] : List (κ × Nat) → κ → Nat → List (κ × Nat)
  | [], k, v => [(k, v)]
  | kv :: rest, k, v => if kv.1 == k then (k, v) :: rest else kv :: dset rest k v

/-- Python `d[k] = d.get(k, 0) + 1`. -/
def bump [BEq κ] (m : List (κ × Nat)) (k : κ) : List (κ × Nat) :=
  dset m k (dget m k + 1)

/-- Sum of the values of a string-keyed counter `dict`. -/
def sumVals (m : List (List Char × Nat)) : Nat :=
  (m.map (·.2)).sum

/-! ## Pattern matcher (`checker/config.py`)

Python `fnmatch.fnmatch` translates a glob pattern to a regex in which
`*` becomes `.*` (matching ANY characters, `/` and newlines included),
`?` becomes a single arbitrary character, and the whole pattern is
anchored at both ends; on POSIX `os.path.normcase` is the identity, so
matching is case-sensitive.  Bracket character classes are not modelled
(no pattern in the repository or in the claims uses them).  The matcher
is written with explicit fuel so that it is structurally recursive and
evaluates inside `decide`; each recursive step shrinks
`s.length + p.length`, so `s.length + p.length` fuel always suffices. -/
def fnmatchFuel : Nat → List Char → List Char → Bool
  | 0, _, _ => false
  | _ + 1, [], [] => true
  | fuel + 1, [], '*' :: ps => fnmatchFuel fuel [] ps
  | _ + 1, [], _ :: _ => false
  | _ + 1, _ :: _, [] => false
  | fuel + 1, c :: cs, p :: ps =>
    if p == '*' then
      fnmatchFuel fuel (c :: cs) ps || fnmatchFuel fuel cs (p :: ps)
    else if p == '?' then
      fnmatchFuel fuel cs ps
    else
      c == p && fnmatchFuel fuel cs ps

def fnmatch (s p : List Char) : Bool :=
  fnmatchFuel (s.length + p.length + 1) s p

/-- Python `str.rstrip` of a single character (`pattern.rstrip('/')`). -/
def rstripSlash (p : List Char) : List Char :=
  (p.reverse.dropWhile (· == '/')).reverse

/-- Last path segment, `pathlib.Path(path_str).name`: the last nonempty
`/`-separated component (pathlib drops trailing slashes; the special
components `.` and `..`, for which pathlib returns an empty name, do not
arise for the relative paths fed to this matcher and are not modelled). -/
def pathName (s : List Char) : List Char :=
  (((splitCh '/' s).filter (fun seg => !seg.isEmpty)).getLastD [])

/-- `CheckerConfig._match_pattern`: strip trailing slashes from the
pattern, then try the glob against the whole string and against its
basename. -/
def match_pattern (path_str pattern : List Char) : Bool :=
  let pattern := rstripSlash pattern
  if fnmatch path_str pattern then
    true
  else if fnmatch (pathName path_str) pattern then
    true
  else
    false

/-- The `CheckerConfig` dataclass.  The `project_name` field and the YAML
loading logic play no role in the claims about `should_include`. -/
structure CheckerConfig where
  includePatterns : List (List Char)
  excludePatterns : List (List Char)
deriving Repr

/-- `CheckerConfig.should_include`, applied to the already-computed
relative path, given as its list of `/`-separated segments
(`rel_path.parts`); `rel_str = str(rel_path)` is their `/`-join.  The
early-`return` loops of the source become `List.any`. -/
def CheckerConfig.should_include (cfg : CheckerConfig) (relParts : List (List Char)) : Bool :=
  let rel_str := List.intercalate "/".toList relParts
  if cfg.excludePatterns.any
      (fun pattern =>
        match_pattern rel_str pattern ||
        relParts.any (fun part => match_pattern part pattern)) then
    false
  else if cfg.includePatterns.isEmpty then
    true
  else
    cfg.includePatterns.any
      (fun pattern =>
        match_pattern rel_str pattern ||
        List.isPrefixOf (rstripSlash pattern) rel_str)

/-! ## A small regex engine for the radon output patterns (`tools/radon_tool.py`)

The two `re.compile` patterns of the source are concatenations of
literal characters, single-character classes, and greedy `+` repetitions
of character classes, with non-nested capturing groups whose contents
are again of those simple shapes.  The engine below implements exactly
those constructs with Python's backtracking preference order (greedy
repetitions try longest first, alternatives in concatenation order), and
`reSearch` implements `re.search`: the leftmost starting position that
admits a match wins, and the first match in backtracking order at that
position is returned. -/
inductive SItem where
  | lit (c : Char)
  | cls (p : Char → Bool)
  | plus (p : Char → Bool)

inductive RItem where
  | item (i : SItem)
  | group (items : List SItem)

/-- Remainders of `s` after a greedy one-or-more repetition of `p`-chars,
longest consumption first (Python's preference order for `+`). -/
def plusTails (p : Char → Bool) : List Char → List (List Char)
  | [] => []
  | c :: s => if p c then plusTails p s ++ [s] else []

/-- All remainders of `s` after matching a group-free sub-pattern against
one of its prefixes, in backtracking preference order. -/
def runSimple : List SItem → List Char → List (List Char)
  | [], s => [s]
  | .lit c :: ps, s =>
    match s with
    | [] => []
    | a :: s' => if a == c then runSimple ps s' else []
  | .cls p :: ps, s =>
    match s with
    | [] => []
    | a :: s' => if p a then runSimple ps s' else []
  | .plus p :: ps, s => (plusTails p s).flatMap (fun t => runSimple ps t)

/-- All ways to match a pattern against a prefix of `s`, in backtracking
preference order; each result is the remaining suffix together with the
captured group contents, in group order. -/
def runItems : List RItem → List Char → List (List Char × List (List Char))
  | [], s => [(s, [])]
  | .item i :: ps, s => (runSimple [i] s).flatMap (fun t => runItems ps t)
  | .group g :: ps, s =>
    (runSimple g s).flatMap (fun t =>
      (runItems ps t).map (fun pr2 => (pr2.1, s.take (s.length - t.length) :: pr2.2)))

/-- `re.search`: try the pattern at every starting position, leftmost
first; on success return the captured groups of the first match. -/
def reSearch (pat : List RItem) : List Char → Option (List (List Char))
  | [] =>
    match runItems pat [] with
    | (_, caps) :: _ => some caps
    | [] => none
  | c :: s' =>
    match runItems pat (c :: s') with
    | (_, caps) :: _ => some caps
    | [] => reSearch pat s'

/-- The `radon mi` line pattern, from the source:
`(.+\.py)\s+-\s+([ABC])\s+\(([\d.]+)\)` (the regex `.` excludes only
the newline). -/
def mi_pattern : List RItem :=
  [.group [.plus (fun c => !(c == '\n')), .lit '.', .lit 'p', .lit 'y'],
   .item (.plus pyIsSpace), .item (.lit '-'), .item (.plus pyIsSpace),
   .group [.cls (fun c => c == 'A' || c == 'B' || c == 'C')],
   .item (.plus pyIsSpace), .item (.lit '('),
   .group [.plus (fun c => pyIsDigit c || c == '.')],
   .item (.lit ')')]

/-- The `radon cc` line pattern, from the source:
`\s+[MFC]\s+\d+:\d+\s+(\w+)\s+-\s+([A-F])\s+\((\d+)\)`. -/
def cc_pattern : List RItem :=
  [.item (.plus pyIsSpace), .item (.cls (fun c => c == 'M' || c == 'F' || c == 'C')),
   .item (.plus pyIsSpace), .item (.plus pyIsDigit), .item (.lit ':'),
   .item (.plus pyIsDigit), .item (.plus pyIsSpace),
   .group [.plus pyIsWord],
   .item (.plus pyIsSpace), .item (.lit '-'), .item (.plus pyIsSpace),
   .group [.cls (fun c => 'A' ≤ c && c ≤ 'F')],
   .item (.plus pyIsSpace), .item (.lit '('), .group [.plus pyIsDigit],
   .item (.lit ')')]

/-! ## Radon maintainability adapter (`RadonMITool.parse_output`) -/

/-- One entry of `low_maintainability_files`.  Python stores
`float(match.group(3))` as the score; the raw captured text is kept here
(the conversion is injective on the texts the claims touch and no claim
inspects the numeric value). -/
structure MIEntry where
  file : List Char
  grade : List Char
  score : List Char
deriving DecidableEq, Repr

/-- The per-line work of `RadonMITool.parse_output`: `pattern.search(line)`
and extraction of the three groups.  The pattern has exactly three
groups, so the wildcard arm of the match is unreachable. -/
def RadonMITool.entry_of_line (l : List Char) : Option MIEntry :=
  match reSearch mi_pattern l with
  | some (fp :: gr :: sc :: _) => some ⟨pyStrip fp, gr, sc⟩
  | _ => none

/-- The source's `for line in output.split('\n')` loop, threading the
`files_by_grade` dict and the `low_maintainability_files` list. -/
def RadonMITool.mi_loop : List (List Char) → List (List Char × Nat) → List MIEntry →
    List (List Char × Nat) × List MIEntry
  | [], g, fs => (g, fs)
  | l :: ls, g, fs =>
    match RadonMITool.entry_of_line l with
    | none => RadonMITool.mi_loop ls g fs
    | some e =>
      RadonMITool.mi_loop ls (bump g e.grade)
        (if e.grade == "B".toList || e.grade == "C".toList then fs ++ [e] else fs)

structure MIParsed where
  issue_count : Nat
  files_by_grade : List (List Char × Nat)
  low_maintainability_files : List MIEntry
deriving DecidableEq, Repr

def RadonMITool.parse_output (output : String) : MIParsed :=
  let res := RadonMITool.mi_loop (splitCh '\n' output.toList)
      [("A".toList, 0), ("B".toList, 0), ("C".toList, 0)] []
  { issue_count := dget res.1 "C".toList
    files_by_grade := res.1
    low_maintainability_files := res.2 }

/-- All per-line matches of the maintainability pattern, in line order. -/
def RadonMITool.line_matches (output : String) : List MIEntry :=
  (splitCh '\n' output.toList).filterMap RadonMITool.entry_of_line

/-! ## Radon cyclomatic-complexity adapter (`RadonCCTool.parse_output`) -/

/-- One entry of `high_complexity_functions`; `score` is
`int(match.group(3))` and `line` is `line.strip()`. -/
structure CCEntry where
  name : List Char
  grade : List Char
  score : Nat
  line : List Char
deriving DecidableEq, Repr

/-- Python `grade in ('C', 'D', 'E', 'F')`. -/
def ccHigh (gr : List Char) : Bool :=
  gr == "C".toList || gr == "D".toList || gr == "E".toList || gr == "F".toList

/-- The per-line work of `RadonCCTool.parse_output`: `pattern.search(line)`
and extraction of the three groups (the pattern has exactly three). -/
def RadonCCTool.entry_of_line (l : List Char) : Option CCEntry :=
  match reSearch cc_pattern l with
  | some (nm :: gr :: sc :: _) => some ⟨nm, gr, digitsToNat sc, pyStrip l⟩
  | _ => none

/-- The source's `for line in output.split('\n')` loop, threading the
`functions_by_grade` dict and the `high_complexity_functions` list. -/
def RadonCCTool.cc_loop : List (List Char) → List (List Char × Nat) → List CCEntry →
    List (List Char × Nat) × List CCEntry
  | [], g, hs => (g, hs)
  | l :: ls, g, hs =>
    match RadonCCTool.entry_of_line l with
    | none => RadonCCTool.cc_loop ls g hs
    | some e =>
      RadonCCTool.cc_loop ls (bump g e.grade)
        (if ccHigh e.grade then hs ++ [e] else hs)

structure CCParsed where
  issue_count : Nat
  functions_by_grade : List (List Char × Nat)
  high_complexity_functions : List CCEntry
deriving DecidableEq, Repr

def RadonCCTool.parse_output (output : String) : CCParsed :=
  let res := RadonCCTool.cc_loop (splitCh '\n' output.toList)
      [("A".toList, 0), ("B".toList, 0), ("C".toList, 0),
       ("D".toList, 0), ("E".toList, 0), ("F".toList, 0)] []
  { issue_count := dget res.1 "C".toList + dget res.1 "D".toList +
      dget res.1 "E".toList + dget res.1 "F".toList
    functions_by_grade := res.1
    high_complexity_functions := res.2 }

/-! ## Flake8 adapter (`Flake8Tool.parse_output`) -/

structure Flake8Parsed where
  issue_count : Nat
  issues_by_code : List (List Char × Nat)
  issues_by_file : List (List Char × Nat)
deriving DecidableEq, Repr

/-- The `line.strip()` pre-pass and the issue-line filter of the source:
keep stripped nonempty lines that do not start with `===` and contain a
colon. -/
def Flake8Tool.issue_lines (output : String) : List (List Char) :=
  let lines := ((splitCh '\n' output.toList).map pyStrip).filter (fun l => !l.isEmpty)
  lines.filter (fun l =>
    !l.isEmpty && !(List.isPrefixOf "===".toList l) && l.contains ':')

/-- The per-line dict updates: split on `:`; with at least four fields,
count the first field as the file and the first whitespace-delimited
token of the re-joined tail as the code. -/
def Flake8Tool.process_line (codes files : List (List Char × Nat)) (l : List Char) :
    List (List Char × Nat) × List (List Char × Nat) :=
  let parts := splitCh ':' l
  if 4 ≤ parts.length then
    let file_path := parts.headD []
    let message := pyStrip (List.intercalate ":".toList (parts.drop 3))
    let code := if message.isEmpty then "UNKNOWN".toList else (pySplitWs message).headD []
    (bump codes code, bump files file_path)
  else
    (codes, files)

def Flake8Tool.dict_loop : List (List Char) → List (List Char × Nat) → List (List Char × Nat) →
    List (List Char × Nat) × List (List Char × Nat)
  | [], codes, files => (codes, files)
  | l :: ls, codes, files =>
    let cf := Flake8Tool.process_line codes files l
    Flake8Tool.dict_loop ls cf.1 cf.2

def Flake8Tool.parse_output (output : String) : Flake8Parsed :=
  let ils := Flake8Tool.issue_lines output
  let cf := Flake8Tool.dict_loop ils [] []
  { issue_count := ils.length, issues_by_code := cf.1, issues_by_file := cf.2 }

/-! ## Quality metrics and score (`utils/report.py`) -/

/-- The `QualityMetrics` dataclass.  The three issue counts and the file
count are non-negative integers in every use in the repository. -/
structure QualityMetrics where
  flake8_issues : Nat := 0
  duplicate_blocks : Nat := 0
  high_complexity : Nat := 0
  python_files : Nat := 0
  project_name : List Char := []

/-- `QualityMetrics.score`: start from 100, subtract three per-category
clamped deductions, and clamp below at 0 (`max(0, total_score)`).  The
float literals `0.2` and `1.5` are modelled as the exact rationals they
denote in binary only approximately; for the monotonicity and bound
claims the two readings agree, as both `float` and `ℚ` orderings are
preserved by these operations. -/
def QualityMetrics.score (m : QualityMetrics) : ℚ :=
  max 0 (100 - min ((m.flake8_issues : ℚ) * 0.2) 30
    - min ((m.duplicate_blocks : ℚ) * 1.5) 40
    - min ((m.high_complexity : ℚ) * 2) 30)

/-- Follows the spec's words (section 4.5), for comparison with
`QualityMetrics.score`: the same formula with the clamp to `[0, 100]`
written out on both sides. -/
def spec_score (styleIssueCount duplicateBlockCount highComplexityCount : Nat) : ℚ :=
  max 0 (min 100 (100 - min ((styleIssueCount : ℚ) * 0.2) 30
    - min ((duplicateBlockCount : ℚ) * 1.5) 40
    - min ((highComplexityCount : ℚ) * 2) 30))

/-! ## Tool execution (`tools/base.py`)

`BaseTool.run` is modelled over an abstract adapter: its `name`,
`build_command`, `parse_output` and the `parsed.get('issue_count', 0)`
projection are parameters, so one definition covers all four adapters.
The external process is an explicit oracle from the command string to
either a captured output pair or an error message (`subprocess.run`
raising); the report-file write is a side effect with no influence on
the returned value beyond the `report_file` field. -/
structure ProcOut where
  stdout : List Char
  stderr : List Char
deriving DecidableEq, Repr

structure ToolResult (δ : Type) where
  tool_name : List Char
  success : Bool
  issue_count : Nat := 0
  raw_output : List Char := []
  report_file : Option (List Char) := none
  details : Option δ := none
  error_message : List Char := []
deriving DecidableEq, Repr

def BaseTool.run {δ : Type} (name : List Char)
    (build_command : List (List Char) → List Char)
    (parse_output : List Char → δ) (issue_count_of : δ → Nat)
    (proc : List Char → Except (List Char) ProcOut)
    (targets : List (List Char)) (output_file : Option (List Char)) : ToolResult δ :=
  if targets.isEmpty then
    { tool_name := name, success := false,
      error_message := "No targets specified".toList }
  else
    match proc (build_command targets) with
    | .error e => { tool_name := name, success := false, error_message := e }
    | .ok r =>
      let output := r.stdout ++
        (if r.stderr.isEmpty then [] else "\n=== STDERR ===\n".toList ++ r.stderr)
      let parsed := parse_output r.stdout
      { tool_name := name, success := true, issue_count := issue_count_of parsed,
        raw_output := output, report_file := output_file, details := some parsed }

/-! ## Checker (`checker/base.py`)

`Checker.check` consults the filesystem (path existence, `find_targets`,
the filtered Python-file list); those inputs are passed as parameters
here, and the claims condition on them. -/
structure ToolSpec (δ : Type) where
  name : List Char
  build_command : List (List Char) → List Char
  parse_output : List Char → δ
  issue_count_of : δ → Nat

def ToolSpec.run {δ : Type} (t : ToolSpec δ)
    (proc : List Char → Except (List Char) ProcOut)
    (targets : List (List Char)) (output_file : Option (List Char)) : ToolResult δ :=
  BaseTool.run t.name t.build_command t.parse_output t.issue_count_of proc targets output_file

/-- `Checker._run_tools`: one result per tool, keyed by the tool's name
(the Python dict keeps insertion order; the four shipped tools have
distinct names, so an association list in iteration order is an exact
model). -/
def Checker.run_tools {δ : Type} (tools : List (ToolSpec δ))
    (proc : List Char → Except (List Char) ProcOut)
    (targets : List (List Char)) (output_dir : Option (List Char)) :
    List (List Char × ToolResult δ) :=
  tools.map (fun tool =>
    (tool.name,
     tool.run proc targets
       (output_dir.map (fun d => d ++ "/".toList ++ tool.name ++ "_report.txt".toList))))

structure CheckResult (δ : Type) where
  project_name : List Char
  project_path : List Char
  success : Bool := true
  python_files : Nat := 0
  target_dirs : List (List Char) := []
  tool_results : List (List Char × ToolResult δ) := []
  error_message : List Char := []
deriving DecidableEq, Repr

def Checker.check {δ : Type} (tools : List (ToolSpec δ))
    (proc : List Char → Except (List Char) ProcOut)
    (path_exists : Bool) (project_name project_path : List Char)
    (target_dirs : List (List Char)) (py_files : List (List Char))
    (output_dir : Option (List Char)) : CheckResult δ :=
  if !path_exists then
    { project_name, project_path, success := false,
      error_message := "Project path does not exist: ".toList ++ project_path }
  else if target_dirs.isEmpty then
    { project_name, project_path, success := false,
      error_message := "No target directories found".toList }
  else if py_files.isEmpty then
    { project_name, project_path, success := false,
      error_message := "No Python files found".toList }
  else
    { project_name, project_path, success := true,
      python_files := py_files.length, target_dirs := target_dirs,
      tool_results := Checker.run_tools tools proc target_dirs
        (output_dir.map (fun d => d ++ "/".toList ++ project_name)) }

/-- Concrete adapters and oracle for the C5 witness: the oracle fails on
the first tool's command and succeeds on the second's. -/
def wFailTool : ToolSpec Unit :=
  ⟨"flake8".toList, fun _ => "c1".toList, fun _ => (), fun _ => 0⟩

def wOkTool : ToolSpec Unit :=
  ⟨"pylint".toList, fun _ => "c2".toList, fun _ => (), fun _ => 0⟩

def wProc : List Char → Except (List Char) ProcOut :=
  fun cmd => if cmd == "c1".toList then Except.error "boom".toList else Except.ok ⟨[], []⟩

-- Basic facts about the dict model.

theorem dget_dset_self [BEq κ] [LawfulBEq κ] (m : List (κ × Nat)) (k : κ) (v : Nat) :
    dget (dset m k v) k = v := by
  induction m with
  | nil => simp [dget, dset]
  | cons kv rest ih =>
    by_cases hkv : kv.1 == k
    · rw [dset, if_pos hkv, dget]
      simp
    · rw [dset, if_neg (by simp [hkv]), dget, if_neg (by simp [hkv]), ih]

theorem dget_dset_ne [BEq κ] [LawfulBEq κ] (m : List (κ × Nat)) (k k' : κ) (v : Nat)
    (h : (k' == k) = false) : dget (dset m k v) k' = dget m k' := by
  induction m with
  | nil =>
    have hk : (k == k') = false :=
      beq_eq_false_iff_ne.mpr (fun e => beq_eq_false_iff_ne.mp h e.symm)
    simp [dget, dset, hk]
  | cons kv rest ih =>
    by_cases hkv : kv.1 == k
    · have hkk : kv.1 = k := eq_of_beq hkv
      have hk : (k == k') = false :=
        beq_eq_false_iff_ne.mpr (fun e => beq_eq_false_iff_ne.mp h e.symm)
      rw [dset, if_pos hkv, dget, dget, hkk, hk]
      simp
    · rw [dset, if_neg (by simp [hkv]), dget, dget]
      by_cases hk' : kv.1 == k'
      · rw [if_pos hk', if_pos hk']
      · rw [if_neg (by simp [hk']), if_neg (by simp [hk']), ih]

theorem dget_bump [BEq κ] [LawfulBEq κ] (m : List (κ × Nat)) (k k' : κ) :
    dget (bump m k) k' = dget m k' + (if (k' == k) = true then 1 else 0) := by
  by_cases h : (k' == k) = true
  · have hk : k' = k := eq_of_beq h
    subst hk
    rw [bump, dget_dset_self, if_pos h]
  · have hf : (k' == k) = false := by
      cases hb : (k' == k) with
      | true => exact absurd hb h
      | false => rfl
    rw [bump, dget_dset_ne _ _ _ _ hf, if_neg h]
    rfl

theorem sumVals_bump (m : List (List Char × Nat)) (k : List Char) :
    sumVals (bump m k) = sumVals m + 1 := by
  rw [bump]
  induction m with
  | nil => simp [sumVals, dset, dget]
  | cons kv rest ih =>
    by_cases h : kv.1 == k
    · simp only [dget, dset, h, if_true, sumVals, List.map_cons, List.sum_cons]
      omega
    · simp only [dget, dset, h, Bool.false_eq_true, if_false, sumVals, List.map_cons,
        List.sum_cons] at ih ⊢
      omega

/-! ## Helper lemmas -/

/-- A bare `*` consumes any remaining input, given enough fuel. -/
theorem fnmatchFuel_star : ∀ fuel (s : List Char), s.length + 2 ≤ fuel →
    fnmatchFuel fuel s ['*'] = true := by
  intro fuel
  induction fuel with
  | zero => intro s hs; omega
  | succ fuel ih =>
    intro s hs
    match s with
    | [] =>
      match fuel, hs with
      | f + 1, _ => rfl
    | c :: cs =>
      have h2 : cs.length + 2 ≤ fuel := by
        simp only [List.length_cons] at hs
        omega
      have hcs : fnmatchFuel fuel cs ['*'] = true := ih cs h2
      simp [fnmatchFuel, hcs]

/-- `fnmatch s "*" = true` for every string `s`. -/
theorem fnmatch_star (s : List Char) : fnmatch s ['*'] = true :=
  fnmatchFuel_star _ s (by simp)

/-- Non-empty flatMap has a contributing element. -/
theorem exists_of_flatMap_ne_nil {α β : Type} {l : List α} {f : α → List β}
    (h : l.flatMap f ≠ []) : ∃ x ∈ l, f x ≠ [] := by
  induction l with
  | nil => simp at h
  | cons a l ih =>
    by_cases ha : f a = []
    · have h' : l.flatMap f ≠ [] := by
        simpa [List.flatMap_cons, ha] using h
      rcases ih h' with ⟨x, hx, hfx⟩
      exact ⟨x, List.mem_cons_of_mem _ hx, hfx⟩
    · exact ⟨a, List.mem_cons_self _ _, ha⟩

/-- Every remainder produced by a greedy repetition sits after a consumed
block whose last character satisfies the class. -/
theorem plusTails_mem (p : Char → Bool) : ∀ (s t : List Char), t ∈ plusTails p s →
    ∃ pre a, s = pre ++ a :: t ∧ p a = true := by
  intro s
  induction s with
  | nil => intro t ht; simp [plusTails] at ht
  | cons c s ih =>
    intro t ht
    by_cases hc : p c
    · rw [plusTails, if_pos hc] at ht
      rcases List.mem_append.mp ht with h | h
      · rcases ih t h with ⟨pre, a, hsplit, hpa⟩
        exact ⟨c :: pre, a, by rw [hsplit]; rfl, hpa⟩
      · have ht' : t = s := by simpa using h
        exact ⟨[], c, by simp [ht'], hc⟩
    · rw [plusTails, if_neg hc] at ht
      simp at ht

/-- A match of `⟨plus p⟩⟨cls q⟩…` decomposes the input: some `p`-character
immediately precedes some `q`-character. -/
theorem runItems_plus_cls {p q : Char → Bool} {ps : List RItem} {s : List Char}
    (h : runItems (.item (.plus p) :: .item (.cls q) :: ps) s ≠ []) :
    ∃ pre a b post, s = pre ++ a :: b :: post ∧ p a = true ∧ q b = true := by
  rw [runItems] at h
  have h1 : ∃ t ∈ runSimple [.plus p] s, runItems (.item (.cls q) :: ps) t ≠ [] :=
    exists_of_flatMap_ne_nil h
  rcases h1 with ⟨t, ht, hrest⟩
  have ht' : t ∈ plusTails p s := by
    simpa [runSimple] using ht
  rcases plusTails_mem p s t ht' with ⟨pre, a, hsplit, hpa⟩
  rw [runItems] at hrest
  have h2 : ∃ u ∈ runSimple [.cls q] t, runItems ps u ≠ [] :=
    exists_of_flatMap_ne_nil hrest
  rcases h2 with ⟨u, hu, _⟩
  match t, hu with
  | b :: t', hu =>
    have hqb : q b = true := by
      by_cases hq : q b
      · exact hq
      · rw [runSimple] at hu
        simp [hq] at hu
    exact ⟨pre, a, b, t', by rw [hsplit], hpa, hqb⟩
  | [], hu => rw [runSimple] at hu; simp at hu

/-- A successful `re.search` for `⟨plus p⟩⟨cls q⟩…` anywhere in the line
still yields the decomposition, with the skipped prefix prepended. -/
theorem reSearch_plus_cls {p q : Char → Bool} {ps : List RItem} :
    ∀ (s : List Char) (caps : List (List Char)),
      reSearch (.item (.plus p) :: .item (.cls q) :: ps) s = some caps →
      ∃ pre a b post, s = pre ++ a :: b :: post ∧ p a = true ∧ q b = true := by
  intro s
  induction s with
  | nil =>
    intro caps h
    rw [reSearch] at h
    cases hr : runItems (.item (.plus p) :: .item (.cls q) :: ps) [] with
    | nil => rw [hr] at h; cases h
    | cons x xs =>
      have : runItems (.item (.plus p) :: .item (.cls q) :: ps) ([] : List Char) ≠ [] := by
        rw [hr]; simp
      rcases runItems_plus_cls this with ⟨pre, a, b, post, habs, _, _⟩
      exact absurd habs (by simp)
  | cons c s ih =>
    intro caps h
    rw [reSearch] at h
    cases hr : runItems (.item (.plus p) :: .item (.cls q) :: ps) (c :: s) with
    | cons x xs =>
      have hne : runItems (.item (.plus p) :: .item (.cls q) :: ps) (c :: s) ≠ [] := by
        rw [hr]; simp
      exact runItems_plus_cls hne
    | nil =>
      rw [hr] at h
      rcases ih caps h with ⟨pre, a, b, post, hsplit, hpa, hqb⟩
      exact ⟨c :: pre, a, b, post, by rw [hsplit]; rfl, hpa, hqb⟩

/-- The collected low-maintainability list is exactly the B/C-graded
line matches, appended in line order after the accumulator. -/
theorem mi_loop_low (ls : List (List Char)) :
    ∀ g fs, (RadonMITool.mi_loop ls g fs).2 =
      fs ++ (ls.filterMap RadonMITool.entry_of_line).filter
        (fun e => e.grade == "B".toList || e.grade == "C".toList) := by
  induction ls with
  | nil => intro g fs; simp [RadonMITool.mi_loop]
  | cons l ls ih =>
    intro g fs
    cases h : RadonMITool.entry_of_line l with
    | none =>
      simp only [RadonMITool.mi_loop, h]
      rw [ih]
      have hfm : List.filterMap RadonMITool.entry_of_line (l :: ls) =
          List.filterMap RadonMITool.entry_of_line ls := by
        simp [List.filterMap_cons, h]
      rw [hfm]
    | some e =>
      simp only [RadonMITool.mi_loop, h]
      rw [ih]
      have hfm : List.filterMap RadonMITool.entry_of_line (l :: ls) =
          e :: List.filterMap RadonMITool.entry_of_line ls := by
        simp [List.filterMap_cons, h]
      rw [hfm, List.filter_cons]
      by_cases hb : (e.grade == "B".toList || e.grade == "C".toList) = true
      · rw [if_pos hb, if_pos hb]
        simp
      · rw [if_neg hb, if_neg hb]

/-- The final C-count of the grade dict is the starting count plus the
number of C-graded line matches. -/
theorem mi_loop_count (ls : List (List Char)) :
    ∀ g fs, dget (RadonMITool.mi_loop ls g fs).1 "C".toList =
      dget g "C".toList +
        ((ls.filterMap RadonMITool.entry_of_line).filter
          (fun e => e.grade == "C".toList)).length := by
  induction ls with
  | nil => intro g fs; simp [RadonMITool.mi_loop]
  | cons l ls ih =>
    intro g fs
    cases h : RadonMITool.entry_of_line l with
    | none =>
      simp only [RadonMITool.mi_loop, h]
      rw [ih]
      have hfm : List.filterMap RadonMITool.entry_of_line (l :: ls) =
          List.filterMap RadonMITool.entry_of_line ls := by
        simp [List.filterMap_cons, h]
      rw [hfm]
    | some e =>
      simp only [RadonMITool.mi_loop, h]
      rw [ih, dget_bump]
      have hfm : List.filterMap RadonMITool.entry_of_line (l :: ls) =
          e :: List.filterMap RadonMITool.entry_of_line ls := by
        simp [List.filterMap_cons, h]
      rw [hfm, List.filter_cons]
      by_cases hc : e.grade = "C".toList
      · have hb1 : (e.grade == "C".toList) = true := beq_iff_eq.mpr hc
        have hb2 : ("C".toList == e.grade) = true := beq_iff_eq.mpr hc.symm
        simp only [hb1, hb2, if_true, List.length_cons]
        omega
      · have hb1 : (e.grade == "C".toList) = false := beq_eq_false_iff_ne.mpr hc
        have hb2 : ("C".toList == e.grade) = false :=
          beq_eq_false_iff_ne.mpr (fun hx => hc hx.symm)
        simp only [hb1, hb2, Bool.false_eq_true, if_false]
        omega

/-- Each processed line adds at most one to the total of
`issues_by_file`. -/
theorem dict_loop_file_sum (ls : List (List Char)) :
    ∀ codes files, sumVals (Flake8Tool.dict_loop ls codes files).2 ≤
      sumVals files + ls.length := by
  induction ls with
  | nil => intro c f; simp [Flake8Tool.dict_loop]
  | cons l ls ih =>
    intro c f
    simp only [Flake8Tool.dict_loop, Flake8Tool.process_line]
    by_cases h : 4 ≤ (splitCh ':' l).length
    · simp only [h, if_true]
      have := ih (bump c (if (pyStrip (List.intercalate ":".toList ((splitCh ':' l).drop 3))).isEmpty
          then "UNKNOWN".toList
          else (pySplitWs (pyStrip (List.intercalate ":".toList ((splitCh ':' l).drop 3)))).headD []))
        (bump f ((splitCh ':' l).headD []))
      rw [sumVals_bump] at this
      simp only [List.length_cons]
      omega
    · simp only [h, if_false]
      have := ih c f
      simp only [List.length_cons]
      omega

/-- Joint antitonicity of the score in the three issue counts. -/
theorem score_anti (m m' : QualityMetrics)
    (h1 : m.flake8_issues ≤ m'.flake8_issues)
    (h2 : m.duplicate_blocks ≤ m'.duplicate_blocks)
    (h3 : m.high_complexity ≤ m'.high_complexity) :
    m'.score ≤ m.score := by
  unfold QualityMetrics.score
  have c1 : ((m.flake8_issues : ℚ)) ≤ (m'.flake8_issues : ℚ) := by exact_mod_cast h1
  have c2 : ((m.duplicate_blocks : ℚ)) ≤ (m'.duplicate_blocks : ℚ) := by exact_mod_cast h2
  have c3 : ((m.high_complexity : ℚ)) ≤ (m'.high_complexity : ℚ) := by exact_mod_cast h3
  have d1 : min ((m.flake8_issues : ℚ) * 0.2) 30 ≤ min ((m'.flake8_issues : ℚ) * 0.2) 30 :=
    min_le_min (by nlinarith) (le_refl _)
  have d2 : min ((m.duplicate_blocks : ℚ) * 1.5) 40 ≤ min ((m'.duplicate_blocks : ℚ) * 1.5) 40 :=
    min_le_min (by nlinarith) (le_refl _)
  have d3 : min ((m.high_complexity : ℚ) * 2) 30 ≤ min ((m'.high_complexity : ℚ) * 2) 30 :=
    min_le_min (by nlinarith) (le_refl _)
  exact max_le_max (le_refl 0) (by linarith)

/-! ## Claim theorems -/

/-- C1: for all non-negative integer counts, `QualityMetrics.score`
equals 100 minus min(styleIssueCount*0.2, 30) minus
min(duplicateBlockCount*1.5, 40) minus min(highComplexityCount*2, 30),
clamped to the interval [0, 100] (the spec-side `spec_score`); in
particular `0 ≤ score ≤ 100` for every such input. -/
theorem C1_score_formula_and_bounds (m : QualityMetrics) :
    m.score = spec_score m.flake8_issues m.duplicate_blocks m.high_complexity ∧
    0 ≤ m.score ∧ m.score ≤ 100 := by
  have h1 : (0 : ℚ) ≤ min ((m.flake8_issues : ℚ) * 0.2) 30 :=
    le_min (mul_nonneg (Nat.cast_nonneg _) (by norm_num)) (by norm_num)
  have h2 : (0 : ℚ) ≤ min ((m.duplicate_blocks : ℚ) * 1.5) 40 :=
    le_min (mul_nonneg (Nat.cast_nonneg _) (by norm_num)) (by norm_num)
  have h3 : (0 : ℚ) ≤ min ((m.high_complexity : ℚ) * 2) 30 :=
    le_min (mul_nonneg (Nat.cast_nonneg _) (by norm_num)) (by norm_num)
  refine ⟨?_, le_max_left _ _, ?_⟩
  · unfold QualityMetrics.score spec_score
    have hmin : min (100 : ℚ)
        (100 - min ((m.flake8_issues : ℚ) * 0.2) 30
          - min ((m.duplicate_blocks : ℚ) * 1.5) 40
          - min ((m.high_complexity : ℚ) * 2) 30) =
        100 - min ((m.flake8_issues : ℚ) * 0.2) 30
          - min ((m.duplicate_blocks : ℚ) * 1.5) 40
          - min ((m.high_complexity : ℚ) * 2) 30 := min_eq_right (by linarith)
    rw [hmin]
  · unfold QualityMetrics.score
    exact max_le (by norm_num) (by linarith)

/-- C2: for every configuration and relative path, if any exclude
pattern matches the path's relative string or any one of its segments,
`should_include` returns false — even when an include pattern also
matches; excludes are evaluated first and always win. -/
theorem C2_exclude_wins (cfg : CheckerConfig) (relParts : List (List Char))
    (pattern : List Char) (hp : pattern ∈ cfg.excludePatterns)
    (hm : match_pattern (List.intercalate "/".toList relParts) pattern = true ∨
      ∃ part ∈ relParts, match_pattern part pattern = true) :
    cfg.should_include relParts = false := by
  have hany : (cfg.excludePatterns.any (fun pattern =>
      match_pattern (List.intercalate "/".toList relParts) pattern ||
      relParts.any (fun part => match_pattern part pattern))) = true := by
    rw [List.any_eq_true]
    refine ⟨pattern, hp, ?_⟩
    rcases hm with h | ⟨part, hpart, h⟩
    · rw [Bool.or_eq_true]
      exact Or.inl h
    · rw [Bool.or_eq_true]
      exact Or.inr (List.any_eq_true.mpr ⟨part, hpart, h⟩)
  simp only [CheckerConfig.should_include]
  rw [if_pos hany]

/-- C2 witness: a path matching both an include and an exclude pattern
is rejected. -/
theorem C2_exclude_wins_witness :
    CheckerConfig.should_include ⟨["a.py".toList], ["a.py".toList]⟩ ["a.py".toList] = false ∧
    match_pattern "a.py".toList "a.py".toList = true :=
  ⟨C2_exclude_wins ⟨["a.py".toList], ["a.py".toList]⟩ ["a.py".toList] "a.py".toList
      (by decide) (Or.inl (by decide)), by decide⟩

/-- C3 counterexample: the claim says `*` never matches across a path
separator, but the matcher accepts pattern `a*b` for path `a/b`, the
`*` consuming the `/`. -/
theorem C3_counterexample_star_crosses :
    match_pattern "a/b".toList "a*b".toList = true := by decide

/-- C3 (amended): in the pattern matcher, `*` matches any run of any
characters — including path separators, so a match may cross segment
boundaries — and matching is case-sensitive. -/
theorem C3_star_unrestricted :
    (∀ s : List Char, fnmatch s ['*'] = true) ∧
    match_pattern "a/b".toList "a*b".toList = true ∧
    match_pattern "A.py".toList "a.py".toList = false :=
  ⟨fnmatch_star, by decide, by decide⟩

/-- C4 counterexample: with an empty target list the error message is
"No targets specified" (capital N), not the claimed
"no targets specified". -/
theorem C4_counterexample_message_case :
    (BaseTool.run (δ := Unit) "flake8".toList (fun _ => []) (fun _ => ()) (fun _ => 0)
        (fun _ => Except.error []) [] none).error_message ≠
      "no targets specified".toList := by decide

/-- C4 (amended): for every adapter, calling run with an empty target
list returns a failed result with error message "No targets specified";
the result is a fixed record not depending on the process oracle, the
command builder or the parser, so no external process is invoked. -/
theorem C4_empty_targets {δ : Type} (name : List Char)
    (build_command : List (List Char) → List Char) (parse_output : List Char → δ)
    (issue_count_of : δ → Nat) (proc : List Char → Except (List Char) ProcOut)
    (output_file : Option (List Char)) :
    BaseTool.run name build_command parse_output issue_count_of proc [] output_file =
      { tool_name := name, success := false,
        error_message := "No targets specified".toList } := rfl

/-- C7: the style adapter on the two-line sample yields two issues, one
per code and one per file. -/
theorem C7_flake8_two_lines :
    Flake8Tool.parse_output "a.py:1:1: E501 line too long\nb.py:2:2: W293 whitespace" =
      { issue_count := 2
        issues_by_code := [("E501".toList, 1), ("W293".toList, 1)]
        issues_by_file := [("a.py".toList, 1), ("b.py".toList, 1)] } := by decide

/-- C8: increasing any one of the three issue counts while holding the
other two fixed never increases `QualityMetrics.score`. -/
theorem C8_score_monotone (m m' : QualityMetrics) :
    (m.flake8_issues ≤ m'.flake8_issues → m.duplicate_blocks = m'.duplicate_blocks →
      m.high_complexity = m'.high_complexity → m'.score ≤ m.score) ∧
    (m.flake8_issues = m'.flake8_issues → m.duplicate_blocks ≤ m'.duplicate_blocks →
      m.high_complexity = m'.high_complexity → m'.score ≤ m.score) ∧
    (m.flake8_issues = m'.flake8_issues → m.duplicate_blocks = m'.duplicate_blocks →
      m.high_complexity ≤ m'.high_complexity → m'.score ≤ m.score) :=
  ⟨fun h1 h2 h3 => score_anti m m' h1 h2.le h3.le,
   fun h1 h2 h3 => score_anti m m' h1.le h2 h3.le,
   fun h1 h2 h3 => score_anti m m' h1.le h2.le h3⟩

/-- C8 witness: one more style issue cannot raise the score. -/
theorem C8_score_monotone_witness :
    ({ flake8_issues := 5, duplicate_blocks := 2, high_complexity := 3 } :
        QualityMetrics).score ≤
      ({ flake8_issues := 4, duplicate_blocks := 2, high_complexity := 3 } :
        QualityMetrics).score :=
  (C8_score_monotone
      { flake8_issues := 4, duplicate_blocks := 2, high_complexity := 3 }
      { flake8_issues := 5, duplicate_blocks := 2, high_complexity := 3 }).1
    (by norm_num) rfl rfl

/-- C5: with an existing path, nonempty target directories and a
nonempty eligible-file list, `Checker.check` reports success regardless
of per-tool outcomes, and every tool's result — including failed
executions — is recorded in that tool's own slot of the result
mapping. -/
theorem C5_analyzer_failure_isolated {δ : Type} (tools : List (ToolSpec δ))
    (proc : List Char → Except (List Char) ProcOut)
    (project_name project_path : List Char)
    (target_dirs : List (List Char)) (py_files : List (List Char))
    (output_dir : Option (List Char))
    (hT : target_dirs ≠ []) (hF : py_files ≠ []) :
    (Checker.check tools proc true project_name project_path target_dirs py_files
        output_dir).success = true ∧
    ∀ t ∈ tools,
      (t.name, t.run proc target_dirs
        ((output_dir.map (fun d => d ++ "/".toList ++ project_name)).map
          (fun d => d ++ "/".toList ++ t.name ++ "_report.txt".toList))) ∈
        (Checker.check tools proc true project_name project_path target_dirs py_files
          output_dir).tool_results := by
  have hT' : target_dirs.isEmpty = false := by
    cases target_dirs with
    | nil => exact absurd rfl hT
    | cons a l => rfl
  have hF' : py_files.isEmpty = false := by
    cases py_files with
    | nil => exact absurd rfl hF
    | cons a l => rfl
  simp only [Checker.check, Bool.not_true, Bool.false_eq_true, if_false, hT', hF']
  refine ⟨trivial, ?_⟩
  intro t ht
  simp only [Checker.run_tools]
  exact List.mem_map_of_mem _ ht

/-- C5 witness: a two-tool check where the first tool's process fails
still succeeds, and the failed result sits in the first tool's slot. -/
theorem C5_analyzer_failure_isolated_witness :
    (Checker.check [wFailTool, wOkTool] wProc true "proj".toList "/proj".toList
        ["src".toList] ["a.py".toList] none).success = true ∧
    (wFailTool.name, wFailTool.run wProc ["src".toList] none) ∈
      (Checker.check [wFailTool, wOkTool] wProc true "proj".toList "/proj".toList
        ["src".toList] ["a.py".toList] none).tool_results ∧
    (wFailTool.run wProc ["src".toList] none).success = false := by
  have h := C5_analyzer_failure_isolated [wFailTool, wOkTool] wProc "proj".toList
      "/proj".toList ["src".toList] ["a.py".toList] none (by simp) (by simp)
  exact ⟨h.1, h.2 wFailTool (List.mem_cons_self _ _), by decide⟩

/-- C6: for every output, the maintainability adapter collects exactly
the B- and C-graded matches into `low_maintainability_files` while
`issue_count` counts only the C-graded matches; on the single line
`pkg/mod.py - B (15.2)` the grades are A:0, B:1, C:0, the count is 0,
and the file still appears in the low-maintainability list. -/
theorem C6_mi_B_collected_not_counted (output : String) :
    (RadonMITool.parse_output output).low_maintainability_files =
      (RadonMITool.line_matches output).filter
        (fun e => e.grade == "B".toList || e.grade == "C".toList) ∧
    (RadonMITool.parse_output output).issue_count =
      ((RadonMITool.line_matches output).filter (fun e => e.grade == "C".toList)).length ∧
    RadonMITool.parse_output "pkg/mod.py - B (15.2)" =
      { issue_count := 0
        files_by_grade := [("A".toList, 0), ("B".toList, 1), ("C".toList, 0)]
        low_maintainability_files := [⟨"pkg/mod.py".toList, "B".toList, "15.2".toList⟩] } := by
  refine ⟨?_, ?_, by decide⟩
  · simp only [RadonMITool.parse_output, RadonMITool.line_matches]
    rw [mi_loop_low]
    simp
  · simp only [RadonMITool.parse_output, RadonMITool.line_matches]
    rw [mi_loop_count]
    have h0 : dget [("A".toList, 0), ("B".toList, 0), ("C".toList, 0)] "C".toList = 0 := by
      decide
    rw [h0]
    omega

/-- C9: the cyclomatic-complexity adapter produces an entry for a line
only if some whitespace character immediately precedes a block-marker
letter M, F or C on that line; the otherwise well-formed column-0 line
`M 10:4 foo - D (22)` produces no entry and `issue_count = 0`. -/
theorem C9_cc_needs_leading_whitespace :
    (∀ (l : List Char) (e : CCEntry), RadonCCTool.entry_of_line l = some e →
      ∃ pre a b post, l = pre ++ a :: b :: post ∧ pyIsSpace a = true ∧
        (b == 'M' || b == 'F' || b == 'C') = true) ∧
    RadonCCTool.parse_output "M 10:4 foo - D (22)" =
      { issue_count := 0
        functions_by_grade := [("A".toList, 0), ("B".toList, 0), ("C".toList, 0),
          ("D".toList, 0), ("E".toList, 0), ("F".toList, 0)]
        high_complexity_functions := [] } := by
  constructor
  · intro l e h
    unfold RadonCCTool.entry_of_line at h
    cases hs : reSearch cc_pattern l with
    | none => rw [hs] at h; cases h
    | some caps =>
      have hs' : reSearch (.item (.plus pyIsSpace) ::
          .item (.cls (fun c => c == 'M' || c == 'F' || c == 'C')) ::
          [.item (.plus pyIsSpace), .item (.plus pyIsDigit), .item (.lit ':'),
           .item (.plus pyIsDigit), .item (.plus pyIsSpace), .group [.plus pyIsWord],
           .item (.plus pyIsSpace), .item (.lit '-'), .item (.plus pyIsSpace),
           .group [.cls (fun c => 'A' ≤ c && c ≤ 'F')], .item (.plus pyIsSpace),
           .item (.lit '('), .group [.plus pyIsDigit], .item (.lit ')')]) l =
          some caps := hs
      exact reSearch_plus_cls l caps hs'
  · decide

/-- C9 witness: a properly indented block line decomposes around a
whitespace character followed by its marker. -/
theorem C9_cc_needs_leading_whitespace_witness :
    ∃ pre a b post, "  M 1:1 f - C (11)".toList = pre ++ a :: b :: post ∧
      pyIsSpace a = true ∧ (b == 'M' || b == 'F' || b == 'C') = true :=
  C9_cc_needs_leading_whitespace.1 "  M 1:1 f - C (11)".toList
    ⟨"f".toList, "C".toList, 11, "M 1:1 f - C (11)".toList⟩ (by decide)

/-- C10: for every output, the values of `issues_by_file` sum to at most
`issue_count`; the line `foo: bar` is counted as an issue line but
contributes to neither dict, so the inequality is strict there. -/
theorem C10_flake8_file_sum_le_count (output : String) :
    sumVals (Flake8Tool.parse_output output).issues_by_file ≤
      (Flake8Tool.parse_output output).issue_count ∧
    (Flake8Tool.parse_output "foo: bar").issue_count = 1 ∧
    (Flake8Tool.parse_output "foo: bar").issues_by_file = [] := by
  refine ⟨?_, by decide, by decide⟩
  simp only [Flake8Tool.parse_output]
  have h := dict_loop_file_sum (Flake8Tool.issue_lines output) [] []
  simpa [sumVals] using h
